import Mathlib

/-!
# A hand-written object runtime (`byhand/scala.h`, `byhand/scala.cpp`)

Shallow embedding of the translated Scala runtime: objects carry a pointer to
one of three statically allocated vtables, class descriptors form a parent
chain terminated by the canonical null value, and methods are called through
vtable slots.

* Pointers are addresses (`Ref`), the null pointer is address `0`.
* The heap is the list of allocated objects, newest first.
* `int32_t` values are integers, renormalised by `wrap32` after arithmetic.
* `char` is a byte; whether it promotes to `int` as a signed or an unsigned
  value is fixed by the platform and is a parameter (`signedChar`).
* Operations that dereference a pointer, or throw, return `Except Err`.
-/

namespace Runtime

/-! ## Machine values -/

/-- An address. The canonical null value is address `0`. -/
abbrev Ref := Nat

/-- The value returned by `null()`: the pointer initialised to 0. -/
def null : Ref := 0

/-- One `char` of a `std::string`: a byte. -/
abbrev CChar := Fin 256

/-- Two-complement renormalisation of an integer to `int32_t`. -/
def wrap32 (x : Int) : Int := (x + 2147483648) % 4294967296 - 2147483648

/-- Reinterpretation of an `int32_t` value as `unsigned` (32 bits). -/
def toUnsigned32 (x : Int) : Nat := (x % 4294967296).toNat

/-- Integral promotion of a `char` to `int`: on a platform with a signed
`char` the bytes from 128 on are negative. -/
def charVal (signedChar : Bool) (c : CChar) : Int :=
  if signedChar && decide (128 ≤ c.val) then (c.val : Int) - 256 else (c.val : Int)

/-- The bytes of a C string literal with one-byte characters. -/
def lit (s : String) : List CChar := s.toList.map (fun c => Fin.ofNat c.toNat)

/-! ## Data layouts -/

/-- The address of a vtable: the program has exactly the three static vtables
`__AnyRef::__vtable`, `__String::__vtable` and `__Class::__vtable`. -/
inductive VPtr where
  | AnyRef_vtable
  | String_vtable
  | Class_vtable
  deriving DecidableEq, Repr

/-- The data layouts `__AnyRef`, `__String` and `__Class`, each holding the
fields that follow the vtable pointer `__vptr`. -/
inductive Obj where
  | AnyRef
  | String (data : List CChar)
  | Class (name : Ref) (parent : Ref)
  deriving DecidableEq, Repr

/-- The field `__vptr`, first in every layout: each constructor stores the
address of the static vtable of its own type, and nothing reassigns it. -/
def Obj.vptr : Obj → VPtr
  | .AnyRef => .AnyRef_vtable
  | .String _ => .String_vtable
  | .Class _ _ => .Class_vtable

/-- Ways a call can fail: the exception thrown by `charAt` (with its message),
a dereference of the null pointer or of an address holding no object, the use
of an object through a pointer of another layout, and an exhausted step
budget of the ancestor walk. -/
inductive Err where
  | out_of_range (msg : List CChar)
  | nullDeref
  | dangling
  | badCast
  | outOfFuel
  deriving DecidableEq, Repr

/-- The program state: allocated objects, and the function-local statics `k`
of the three accessors `__class()` as they stand after static
initialisation. -/
structure Heap where
  objs : List (Ref × Obj)
  AnyRef_class : Ref
  String_class : Ref
  Class_class : Ref

/-- Read the object a pointer refers to. -/
def Heap.deref (h : Heap) (p : Ref) : Except Err Obj :=
  if p = null then .error .nullDeref
  else match h.objs.lookup p with
    | some o => .ok o
    | none => .error .dangling

/-- Read through a pointer of static type `String`. -/
def Heap.derefString (h : Heap) (p : Ref) : Except Err (List CChar) :=
  match h.deref p with
  | .ok (.String data) => .ok data
  | .ok _ => .error .badCast
  | .error e => .error e

/-- Read through a pointer of static type `Class`: the fields `name` and
`parent`. -/
def Heap.derefClass (h : Heap) (p : Ref) : Except Err (Ref × Ref) :=
  match h.deref p with
  | .ok (.Class name parent) => .ok (name, parent)
  | .ok _ => .error .badCast
  | .error e => .error e

/-- Place a newly constructed object at address `a`. -/
def Heap.alloc (h : Heap) (a : Ref) (o : Obj) : Heap :=
  { h with objs := (a, o) :: h.objs }

/-! ## Constructors -/

/-- The constructor `__AnyRef::__AnyRef()`. -/
def AnyRef.new : Obj := .AnyRef

/-- The constructor `__String::__String(std::string data)`. -/
def String.new (data : List CChar) : Obj := .String data

/-- The constructor `__Class::__Class(String name, Class parent)`. -/
def Class.new (name : Ref) (parent : Ref) : Obj := .Class name parent

/-! ## `scala.AnyRef` -/

/-- The method `__AnyRef::hashCode`: the address, cast to `intptr_t` and then
to `int32_t`. -/
def AnyRef.hashCode (this : Ref) : Int := wrap32 (this : Int)

/-- The method `__AnyRef::equals`: pointer comparison. -/
def AnyRef.equals (this : Ref) (other : Ref) : Bool := decide (this = other)

/-- The field `__is_a` of each vtable, set by its constructor from the
accessor `__class()` of its type. -/
def Heap.is_a (h : Heap) : VPtr → Ref
  | .AnyRef_vtable => h.AnyRef_class
  | .String_vtable => h.String_class
  | .Class_vtable => h.Class_class

/-- The method `__AnyRef::getClass`: `__this->__vptr->__is_a`. -/
def AnyRef.getClass (h : Heap) (this : Ref) : Except Err Ref := do
  let o ← h.deref this
  pure (h.is_a o.vptr)

/-- The slot `getClass` of each vtable: all three bind `__AnyRef::getClass`. -/
def vt_getClass : VPtr → Heap → Ref → Except Err Ref
  | .AnyRef_vtable => AnyRef.getClass
  | .String_vtable => AnyRef.getClass
  | .Class_vtable => AnyRef.getClass

/-! ## `scala.String`: hashing -/

/-- The loop of `__String::hashCode` from an iterator position (the remaining
characters) and the current value of `hash`. -/
def String.hashLoop (signedChar : Bool) : List CChar → Int → Int
  | [], hash => hash
  | c :: rest, hash => String.hashLoop signedChar rest (wrap32 (31 * hash + charVal signedChar c))

/-- The method `__String::hashCode`. -/
def String.hashCode (signedChar : Bool) (h : Heap) (this : Ref) : Except Err Int := do
  let data ← h.derefString this
  pure (String.hashLoop signedChar data 0)

/-- The rolling hash as the specification words it: start from 0 and fold
`hash := 31*hash + c` over the characters in order, in 32-bit signed
arithmetic with wraparound. -/
def specRollingHash (signedChar : Bool) (data : List CChar) : Int :=
  data.foldl (fun hash c => wrap32 (31 * hash + charVal signedChar c)) 0

/-- The same polynomial evaluated in unbounded integers. -/
def exactPolynomial (signedChar : Bool) (data : List CChar) : Int :=
  data.foldl (fun acc c => 31 * acc + charVal signedChar c) 0

/-! ## `java.lang.Class` -/

/-- The method `__Class::getName`: the field `name`. -/
def Class.getName (h : Heap) (this : Ref) : Except Err Ref := do
  let (name, _) ← h.derefClass this
  pure name

/-- The method `__Class::getSuperclass`: the field `parent`. -/
def Class.getSuperclass (h : Heap) (this : Ref) : Except Err Ref := do
  let (_, parent) ← h.derefClass this
  pure parent

/-- The slot `equals` of `__Class_VT`: `__AnyRef::equals` under a cast. -/
def Class_VT_equals (this : Ref) (other : Ref) : Bool := AnyRef.equals this other

/-- The slot `getName` of `__Class_VT`. -/
def Class_VT_getName (h : Heap) (this : Ref) : Except Err Ref := Class.getName h this

/-- The slot `getSuperclass` of `__Class_VT`. -/
def Class_VT_getSuperclass (h : Heap) (this : Ref) : Except Err Ref :=
  Class.getSuperclass h this

/-- The `do ... while` loop of `__Class::isInstance`, entered with candidate
`k`; the first argument bounds the number of iterations.  Each iteration
reads `__this->__vptr` and `k->__vptr`. -/
def Class.isInstanceLoop (h : Heap) (this : Ref) : Nat → Ref → Except Err Bool
  | 0, _ => .error .outOfFuel
  | fuel + 1, k => do
    let _ ← h.derefClass this
    if Class_VT_equals this k then pure true
    else
      let _ ← h.derefClass k
      let k' ← Class_VT_getSuperclass h k
      if null ≠ k' then Class.isInstanceLoop h this fuel k' else pure false

/-- The method `__Class::isInstance`: the runtime class of `o` is fetched
through the `getClass` slot of the vtable of `o`, then the loop runs. -/
def Class.isInstance (fuel : Nat) (h : Heap) (this : Ref) (o : Ref) : Except Err Bool := do
  let obj ← h.deref o
  let k ← vt_getClass obj.vptr h o
  Class.isInstanceLoop h this fuel k

/-- The slot `isInstance` of `__Class_VT`. -/
def Class_VT_isInstance (fuel : Nat) (h : Heap) (this : Ref) (o : Ref) : Except Err Bool :=
  Class.isInstance fuel h this o

/-- The method `__Class::toString`: a new string `"class " + name->data`,
constructed at the address `a` the allocator hands out. -/
def Class.toString (h : Heap) (this : Ref) (a : Ref) : Except Err (Heap × Ref) := do
  let (name, _) ← h.derefClass this
  let ndata ← h.derefString name
  pure (h.alloc a (String.new (lit "class " ++ ndata)), a)

/-! ## `scala.String` -/

/-- The comparison `std::string::compare`: bytes are compared as unsigned
values up to the shorter length, then the lengths decide; only the sign of
the result is fixed by the standard. -/
def compare : List CChar → List CChar → Int
  | [], [] => 0
  | [], _ :: _ => -1
  | _ :: _, [] => 1
  | a :: as, b :: bs => if a < b then -1 else if b < a then 1 else compare as bs

/-- The method `__String::equals`. -/
def String.equals (fuel : Nat) (h : Heap) (this : Ref) (o : Ref) : Except Err Bool := do
  let k := h.String_class
  let _ ← h.derefClass k
  if !(← Class_VT_isInstance fuel h k o) then pure false
  else
    let other := o
    let data ← h.derefString this
    let odata ← h.derefString other
    pure (decide (compare data odata = 0))

/-- The method `__String::toString`. -/
def String.toString (this : Ref) : Ref := this

/-- The method `__String::length`: the `size_t` length converted to `int32_t`. -/
def String.length (h : Heap) (this : Ref) : Except Err Int := do
  let data ← h.derefString this
  pure (wrap32 (data.length : Int))

/-- The method `__String::charAt`.  The unchecked `operator[]` is only reached
with an index inside the payload. -/
def String.charAt (h : Heap) (this : Ref) (idx : Int) : Except Err CChar := do
  let data ← h.derefString this
  if 0 > idx ∨ toUnsigned32 idx ≥ data.length then
    throw (.out_of_range (lit "Index out of bounds for string " ++ data))
  else
    match data[idx.toNat]? with
    | some c => pure c
    | none => throw .dangling

/-! ## `scala.AnyRef.toString` and the inherited slots -/

/-- The digits `std::hex` prints for an unsigned value: lower case, no
leading zeros, no base marker. -/
def hexDigits (n : Nat) : List CChar := (Nat.toDigits 16 n).map (fun c => Fin.ofNat c.toNat)

/-- The method `__AnyRef::toString`: the class is fetched through the
`getClass` slot, its name through the `getName` slot, and the stream receives
the name, `'@'`, and `(uintptr_t) __this` in hexadecimal.  The new string is
constructed at the address `a` the allocator hands out. -/
def AnyRef.toString (h : Heap) (this : Ref) (a : Ref) : Except Err (Heap × Ref) := do
  let obj ← h.deref this
  let k ← vt_getClass obj.vptr h this
  let _ ← h.derefClass k
  let name ← Class_VT_getName h k
  let ndata ← h.derefString name
  pure (h.alloc a (String.new (ndata ++ lit "@" ++ hexDigits this)), a)

/-- The slot `hashCode` of each vtable. -/
def vt_hashCode (signedChar : Bool) : VPtr → Heap → Ref → Except Err Int
  | .AnyRef_vtable => fun _ this => pure (AnyRef.hashCode this)
  | .String_vtable => String.hashCode signedChar
  | .Class_vtable => fun _ this => pure (AnyRef.hashCode this)

/-- The slot `equals` of each vtable. -/
def vt_equals (fuel : Nat) : VPtr → Heap → Ref → Ref → Except Err Bool
  | .AnyRef_vtable => fun _ this other => pure (AnyRef.equals this other)
  | .String_vtable => String.equals fuel
  | .Class_vtable => fun _ this other => pure (Class_VT_equals this other)

/-- The slot `toString` of each vtable. -/
def vt_toString : VPtr → Heap → Ref → Ref → Except Err (Heap × Ref)
  | .AnyRef_vtable => AnyRef.toString
  | .String_vtable => fun h this _ => pure (h, String.toString this)
  | .Class_vtable => Class.toString

/-- A call `o->__vptr->getClass(o)` on a pointer of any static type. -/
def call_getClass (h : Heap) (o : Ref) : Except Err Ref := do
  let obj ← h.deref o
  vt_getClass obj.vptr h o

/-- A call `o->__vptr->hashCode(o)` on a pointer of any static type. -/
def call_hashCode (signedChar : Bool) (h : Heap) (o : Ref) : Except Err Int := do
  let obj ← h.deref o
  vt_hashCode signedChar obj.vptr h o

/-- A call `o->__vptr->toString(o)` on a pointer of any static type. -/
def call_toString (h : Heap) (o : Ref) (a : Ref) : Except Err (Heap × Ref) := do
  let obj ← h.deref o
  vt_toString obj.vptr h o a

/-- A call `k->__vptr->isInstance(k, o)` on a pointer of static type `Class`. -/
def call_isInstance (fuel : Nat) (h : Heap) (k : Ref) (o : Ref) : Except Err Bool := do
  let _ ← h.derefClass k
  Class_VT_isInstance fuel h k o

/-- A call `o->__vptr->equals(o, other)` on a pointer of any static type. -/
def call_equals (fuel : Nat) (h : Heap) (o : Ref) (other : Ref) : Except Err Bool := do
  let obj ← h.deref o
  vt_equals fuel obj.vptr h o other

/-- The slot `hashCode` of `__String_VT`. -/
def String_VT_hashCode (signedChar : Bool) (h : Heap) (this : Ref) : Except Err Int :=
  String.hashCode signedChar h this

/-- The slot `length` of `__String_VT`. -/
def String_VT_length (h : Heap) (this : Ref) : Except Err Int := String.length h this

/-- The slot `charAt` of `__String_VT`. -/
def String_VT_charAt (h : Heap) (this : Ref) (idx : Int) : Except Err CChar :=
  String.charAt h this idx

/-- A call `s->__vptr->hashCode(s)` on a pointer of static type `String`. -/
def call_String_hashCode (signedChar : Bool) (h : Heap) (s : Ref) : Except Err Int := do
  let _ ← h.derefString s
  String_VT_hashCode signedChar h s

/-- A call `s->__vptr->length(s)` on a pointer of static type `String`. -/
def call_length (h : Heap) (s : Ref) : Except Err Int := do
  let _ ← h.derefString s
  String_VT_length h s

/-- A call `s->__vptr->charAt(s, idx)` on a pointer of static type `String`. -/
def call_charAt (h : Heap) (s : Ref) (idx : Int) : Except Err CChar := do
  let _ ← h.derefString s
  String_VT_charAt h s idx

/-- A call `k->__vptr->getName(k)` on a pointer of static type `Class`. -/
def call_getName (h : Heap) (k : Ref) : Except Err Ref := do
  let _ ← h.derefClass k
  Class_VT_getName h k

/-- A call `k->__vptr->getSuperclass(k)` on a pointer of static type `Class`. -/
def call_getSuperclass (h : Heap) (k : Ref) : Except Err Ref := do
  let _ ← h.derefClass k
  Class_VT_getSuperclass h k

/-- The function `main` of `main.cpp`, started in state `h`; `a0` is the
address of the string it constructs and `a1` the address handed to an
allocation inside `toString`.  The result lists the four values written to
`cout`: `a.hashCode`, the text of `s2`, `s.length()` and `s.hashCode()`. -/
def main (signedChar : Bool) (h : Heap) (a0 a1 : Ref) :
    Except Err (Int × List CChar × Int × Int) := do
  let h1 := h.alloc a0 (String.new (lit "Hello"))
  let s := a0
  let a := s
  let out1 ← call_hashCode signedChar h1 a
  let (h2, s2) ← call_toString h1 a a1
  let out2 ← h2.derefString s2
  let out3 ← call_length h2 s
  let out4 ← call_String_hashCode signedChar h2 s
  pure (out1, out2, out3, out4)

/-! ## Static initialisation and well-formed states -/

/-- The state after the three vtables have been constructed: each accessor
`__class()` has run once, allocating the name string and then the
descriptor.  The six addresses are those the allocator handed out. -/
def staticInit (nObject kObject nString kString nClass kClass : Ref) : Heap :=
  { objs :=
      [ (kClass, Class.new nClass kObject), (nClass, String.new (lit "java.lang.Class")),
        (kString, Class.new nString kObject), (nString, String.new (lit "java.lang.String")),
        (kObject, Class.new nObject null), (nObject, String.new (lit "java.lang.Object")) ],
    AnyRef_class := kObject,
    String_class := kString,
    Class_class := kClass }

/-- Descriptor `k` is a live `Class` object with the given parent whose name
is a live string with the given text. -/
def Heap.describes (h : Heap) (k : Ref) (name : List CChar) (parent : Ref) : Prop :=
  ∃ n, h.deref k = .ok (Class.new n parent) ∧ h.deref n = .ok (String.new name)

/-- A state of the running program: the three static descriptors are in place
as static initialisation left them. -/
structure Heap.WF (h : Heap) : Prop where
  root : h.describes h.AnyRef_class (lit "java.lang.Object") null
  string : h.describes h.String_class (lit "java.lang.String") h.AnyRef_class
  cls : h.describes h.Class_class (lit "java.lang.Class") h.AnyRef_class

/-- Address `a` is free: not null and not occupied. -/
def Heap.fresh (h : Heap) (a : Ref) : Prop := a ≠ null ∧ h.objs.lookup a = none

/-- Descriptor `c` is `k` or is reached from `k` by following `parent` links
that are not null. -/
inductive Heap.InChain (h : Heap) : Ref → Ref → Prop where
  | here (k : Ref) : Heap.InChain h k k
  | up (k n p c : Ref) : h.deref k = .ok (Class.new n p) → p ≠ null →
      Heap.InChain h p c → Heap.InChain h k c

/-- The parent chain that starts at descriptor `k` reaches the null value
after exactly `m` descriptors. -/
inductive Heap.ChainLen (h : Heap) : Ref → Nat → Prop where
  | last (k n : Ref) : h.deref k = .ok (Class.new n null) → Heap.ChainLen h k 1
  | step (k n p : Ref) (m : Nat) : h.deref k = .ok (Class.new n p) → p ≠ null →
      Heap.ChainLen h p m → Heap.ChainLen h k (m + 1)

/-- The state of `main` after `new __String("Hello")`, with sample addresses. -/
def demoHeap : Heap :=
  (staticInit 4112 4144 4176 4208 4240 4272).alloc 4304 (String.new (lit "Hello"))

/-- A later state: a second string with the same text, a string with another
text, and a bare root-type object. -/
def demoHeap2 : Heap :=
  ((demoHeap.alloc 4336 (String.new (lit "Hello"))).alloc 4368
    (String.new (lit "World"))).alloc 4400 AnyRef.new

/-- A state with a bare root-type object above the 32-bit address range. -/
def highHeap : Heap :=
  (staticInit 4112 4144 4176 4208 4240 4272).alloc 4294967312 AnyRef.new

/-- A state holding "Hello", "World" and their concatenation. -/
def demoHeap3 : Heap :=
  demoHeap2.alloc 4432 (String.new (lit "Hello" ++ lit "World"))

/-- The states the program can be in: static initialisation with six distinct
non-null addresses, followed by any number of constructions at free
addresses. -/
inductive Heap.Reachable : Heap → Prop where
  | init (nObject kObject nString kString nClass kClass : Ref) :
      [null, nObject, kObject, nString, kString, nClass, kClass].Nodup →
      Heap.Reachable (staticInit nObject kObject nString kString nClass kClass)
  | alloc (h : Heap) (a : Ref) (o : Obj) :
      Heap.Reachable h → h.fresh a → Heap.Reachable (h.alloc a o)

/-- The descriptors of the runtime: one for each of its three types. -/
def Heap.isDescriptor (h : Heap) (k : Ref) : Prop :=
  k = h.AnyRef_class ∨ k = h.String_class ∨ k = h.Class_class

/-! ## Basic facts -/

theorem wrap32_step (x c : Int) : wrap32 (31 * wrap32 x + c) = wrap32 (31 * x + c) := by
  unfold wrap32; omega

theorem hashLoop_eq_foldl (sc : Bool) (data : List CChar) (hash : Int) :
    String.hashLoop sc data hash
      = data.foldl (fun hash c => wrap32 (31 * hash + charVal sc c)) hash := by
  induction data generalizing hash with
  | nil => rfl
  | cons c rest ih => simp [String.hashLoop, ih]

theorem foldl_wrap_exact (sc : Bool) (data : List CChar) (a b : Int) (hab : a = wrap32 b) :
    data.foldl (fun hash c => wrap32 (31 * hash + charVal sc c)) a
      = wrap32 (data.foldl (fun acc c => 31 * acc + charVal sc c) b) := by
  induction data generalizing a b with
  | nil => simpa using hab
  | cons c rest ih =>
    simp only [List.foldl_cons]
    apply ih
    rw [hab, wrap32_step]

theorem derefString_of_deref {h : Heap} {s : Ref} {data : List CChar}
    (hs : h.deref s = .ok (String.new data)) : h.derefString s = .ok data := by
  simp [Heap.derefString, hs, String.new]

theorem derefClass_of_deref {h : Heap} {k n p : Ref}
    (hk : h.deref k = .ok (Class.new n p)) : h.derefClass k = .ok (n, p) := by
  simp [Heap.derefClass, hk, Class.new]

theorem ne_null_of_deref {h : Heap} {p : Ref} {o : Obj} (hp : h.deref p = .ok o) :
    p ≠ null := by
  intro hnull
  simp [Heap.deref, hnull] at hp

theorem hashCode_of_deref (sc : Bool) {h : Heap} {s : Ref} {data : List CChar}
    (hs : h.deref s = .ok (String.new data)) :
    String.hashCode sc h s = .ok (specRollingHash sc data) := by
  simp [String.hashCode, derefString_of_deref hs, specRollingHash, hashLoop_eq_foldl,
    bind, Except.bind, pure, Except.pure]

theorem compare_eq_zero_iff (a b : List CChar) : compare a b = 0 ↔ a = b := by
  induction a generalizing b with
  | nil => cases b <;> simp [compare]
  | cons x xs ih =>
    cases b with
    | nil => simp [compare]
    | cons y ys =>
      simp only [compare]
      by_cases hxy : x < y
      · simp [hxy]; intro hx; exact absurd hxy (by simp [hx])
      · by_cases hyx : y < x
        · simp [hxy, hyx]; intro hx; exact absurd hyx (by simp [hx])
        · have hx : x = y := le_antisymm (not_lt.mp hyx) (not_lt.mp hxy)
          simp [hxy, hyx, hx, ih]

/-! ## The static descriptors -/

theorem deref_cons (objs : List (Ref × Obj)) (c1 c2 c3 a p : Ref) (o : Obj) :
    Heap.deref ⟨(a, o) :: objs, c1, c2, c3⟩ p
      = if p = null then .error .nullDeref
        else if p = a then .ok o else Heap.deref ⟨objs, c1, c2, c3⟩ p := by
  by_cases hp : p = null
  · simp [Heap.deref, hp]
  · by_cases hpa : p = a
    · simp [Heap.deref, hp, hpa, List.lookup_cons]
    · have hb : (p == a) = false := by simpa using hpa
      simp [Heap.deref, hp, hpa, List.lookup_cons, hb]

theorem staticInit_WF (nObject kObject nString kString nClass kClass : Ref)
    (hnd : [null, nObject, kObject, nString, kString, nClass, kClass].Nodup) :
    (staticInit nObject kObject nString kString nClass kClass).WF := by
  simp only [List.nodup_cons, List.mem_cons, List.mem_singleton, not_or, List.not_mem_nil,
    not_false_eq_true, List.nodup_nil, and_true] at hnd
  obtain ⟨⟨h01, h02, h03, h04, h05, h06⟩, ⟨h12, h13, h14, h15, h16⟩, ⟨h23, h24, h25, h26⟩,
    ⟨h34, h35, h36⟩, ⟨h45, h46⟩, h56⟩ := hnd
  refine ⟨⟨nObject, ?_, ?_⟩, ⟨nString, ?_, ?_⟩, ⟨nClass, ?_, ?_⟩⟩ <;>
    simp [staticInit, deref_cons, *, Ne.symm]

theorem WF_alloc {h : Heap} (hwf : h.WF) {a : Ref} (ha : h.fresh a) (o : Obj) :
    (h.alloc a o).WF := by
  have key : ∀ p x, h.deref p = .ok x → (h.alloc a o).deref p = .ok x := by
    intro p x hp
    have hpn : p ≠ null := ne_null_of_deref hp
    have hpa : p ≠ a := by
      intro hpa
      subst hpa
      simp [Heap.deref, hpn, ha.2] at hp
    rw [← hp]
    simp [Heap.alloc, deref_cons, hpn, hpa]
  obtain ⟨⟨n1, h1, h1'⟩, ⟨n2, h2, h2'⟩, ⟨n3, h3, h3'⟩⟩ := hwf
  exact ⟨⟨n1, key _ _ h1, key _ _ h1'⟩, ⟨n2, key _ _ h2, key _ _ h2'⟩,
    ⟨n3, key _ _ h3, key _ _ h3'⟩⟩

theorem deref_alloc_self (h : Heap) {a : Ref} (ha : a ≠ null) (o : Obj) :
    (h.alloc a o).deref a = .ok o := by
  simp [Heap.alloc, deref_cons, ha]

theorem demoHeap_WF : demoHeap.WF :=
  WF_alloc (staticInit_WF _ _ _ _ _ _ (by decide)) ⟨by decide, by rfl⟩ _

theorem demoHeap2_WF : demoHeap2.WF :=
  WF_alloc (WF_alloc (WF_alloc demoHeap_WF ⟨by decide, by rfl⟩ _) ⟨by decide, by rfl⟩ _)
    ⟨by decide, by rfl⟩ _

/-! ## The ancestor walk -/

theorem InChain_iff (h : Heap) (k c : Ref) :
    h.InChain k c ↔
      k = c ∨ ∃ n p, h.deref k = .ok (Class.new n p) ∧ p ≠ null ∧ h.InChain p c := by
  constructor
  · intro hkc
    cases hkc with
    | here => exact Or.inl rfl
    | up _ n p _ hd hp hpc => exact Or.inr ⟨n, p, hd, hp, hpc⟩
  · rintro (rfl | ⟨n, p, hd, hp, hpc⟩)
    · exact .here _
    · exact .up _ n p _ hd hp hpc

theorem isInstanceLoop_spec (h : Heap) (this n0 p0 : Ref)
    (hthis : h.deref this = .ok (Class.new n0 p0)) (k : Ref) (m : Nat)
    (hk : h.ChainLen k m) :
    ∀ fuel, m ≤ fuel →
      ∃ b, Class.isInstanceLoop h this fuel k = .ok b ∧ (b = true ↔ h.InChain k this) := by
  induction hk with
  | last k n hkd =>
    intro fuel hf
    obtain ⟨f, rfl⟩ : ∃ f, fuel = f + 1 := ⟨fuel - 1, by omega⟩
    by_cases e : this = k
    · subst e
      exact ⟨true, by simp [Class.isInstanceLoop, derefClass_of_deref hthis, Class_VT_equals,
        AnyRef.equals, bind, Except.bind, pure, Except.pure], by simp [Heap.InChain.here]⟩
    · refine ⟨false, by simp [Class.isInstanceLoop, derefClass_of_deref hthis,
        derefClass_of_deref hkd, Class_VT_equals, AnyRef.equals, Class_VT_getSuperclass,
        Class.getSuperclass, e, bind, Except.bind, pure, Except.pure], ?_⟩
      simp only [Bool.false_eq_true, false_iff]
      rw [InChain_iff]
      rintro (hkc | ⟨n', p', hd, hp, _⟩)
      · exact e hkc.symm
      · rw [hkd] at hd
        simp only [Class.new, Except.ok.injEq, Obj.Class.injEq] at hd
        exact hp hd.2.symm
  | step k n p m hkd hp _ ih =>
    intro fuel hf
    obtain ⟨f, rfl⟩ : ∃ f, fuel = f + 1 := ⟨fuel - 1, by omega⟩
    by_cases e : this = k
    · subst e
      exact ⟨true, by simp [Class.isInstanceLoop, derefClass_of_deref hthis, Class_VT_equals,
        AnyRef.equals, bind, Except.bind, pure, Except.pure], by simp [Heap.InChain.here]⟩
    · obtain ⟨b, hb, hbi⟩ := ih f (by omega)
      refine ⟨b, by simp [Class.isInstanceLoop, derefClass_of_deref hthis,
        derefClass_of_deref hkd, Class_VT_equals, AnyRef.equals, Class_VT_getSuperclass,
        Class.getSuperclass, e, hp.symm, hb, bind, Except.bind, pure, Except.pure], ?_⟩
      rw [hbi, InChain_iff h k this]
      constructor
      · intro hpc
        exact Or.inr ⟨n, p, hkd, hp, hpc⟩
      · rintro (hkc | ⟨n', p', hd, _, hpc⟩)
        · exact absurd hkc.symm e
        · rw [hkd] at hd
          simp only [Class.new, Except.ok.injEq, Obj.Class.injEq] at hd
          rw [hd.2]
          exact hpc

theorem Heap.WF.chain_root {h : Heap} (hwf : h.WF) : h.ChainLen h.AnyRef_class 1 := by
  obtain ⟨n, hd, _⟩ := hwf.root
  exact .last _ n hd

theorem Heap.WF.chain_string {h : Heap} (hwf : h.WF) : h.ChainLen h.String_class 2 := by
  obtain ⟨n, hd, _⟩ := hwf.string
  obtain ⟨n1, hd1, _⟩ := hwf.root
  exact .step _ n _ 1 hd (ne_null_of_deref hd1) hwf.chain_root

theorem Heap.WF.chain_class {h : Heap} (hwf : h.WF) : h.ChainLen h.Class_class 2 := by
  obtain ⟨n, hd, _⟩ := hwf.cls
  obtain ⟨n1, hd1, _⟩ := hwf.root
  exact .step _ n _ 1 hd (ne_null_of_deref hd1) hwf.chain_root

theorem Heap.WF.chain_is_a {h : Heap} (hwf : h.WF) (vp : VPtr) :
    ∃ m, m ≤ 2 ∧ h.ChainLen (h.is_a vp) m := by
  cases vp
  · exact ⟨1, by omega, hwf.chain_root⟩
  · exact ⟨2, by omega, hwf.chain_string⟩
  · exact ⟨2, by omega, hwf.chain_class⟩

theorem call_getClass_of_deref {h : Heap} {o : Ref} {obj : Obj} (ho : h.deref o = .ok obj) :
    call_getClass h o = .ok (h.is_a obj.vptr) := by
  cases obj <;>
    simp [call_getClass, vt_getClass, AnyRef.getClass, ho, Obj.vptr, bind, Except.bind, pure,
      Except.pure]

theorem isInstance_eq_loop {h : Heap} {o : Ref} {obj : Obj} (ho : h.deref o = .ok obj)
    (fuel : Nat) (this : Ref) :
    Class.isInstance fuel h this o = Class.isInstanceLoop h this fuel (h.is_a obj.vptr) := by
  cases obj <;>
    simp [Class.isInstance, vt_getClass, AnyRef.getClass, ho, Obj.vptr, bind, Except.bind, pure,
      Except.pure]

theorem call_isInstance_eq {h : Heap} {k n p : Ref} (hk : h.deref k = .ok (Class.new n p))
    (fuel : Nat) (o : Ref) :
    call_isInstance fuel h k o = Class.isInstance fuel h k o := by
  simp [call_isInstance, Class_VT_isInstance, derefClass_of_deref hk, bind, Except.bind]

theorem isInstance_spec {h : Heap} (hwf : h.WF) {C n p o : Ref} {obj : Obj}
    (hC : h.deref C = .ok (Class.new n p)) (ho : h.deref o = .ok obj) {fuel : Nat}
    (hf : 2 ≤ fuel) :
    ∃ b, Class.isInstance fuel h C o = .ok b ∧ (b = true ↔ h.InChain (h.is_a obj.vptr) C) := by
  obtain ⟨m, hm, hch⟩ := hwf.chain_is_a obj.vptr
  rw [isInstance_eq_loop ho]
  exact isInstanceLoop_spec h C n p hC _ m hch fuel (by omega)

theorem Heap.WF.string_ne_root {h : Heap} (hwf : h.WF) : h.String_class ≠ h.AnyRef_class := by
  obtain ⟨n, hd, _⟩ := hwf.string
  obtain ⟨n1, hd1, _⟩ := hwf.root
  intro e
  rw [e, hd1] at hd
  simp only [Class.new, Except.ok.injEq, Obj.Class.injEq] at hd
  exact ne_null_of_deref hd1 hd.2.symm

theorem Heap.WF.class_ne_root {h : Heap} (hwf : h.WF) : h.Class_class ≠ h.AnyRef_class := by
  obtain ⟨n, hd, _⟩ := hwf.cls
  obtain ⟨n1, hd1, _⟩ := hwf.root
  intro e
  rw [e, hd1] at hd
  simp only [Class.new, Except.ok.injEq, Obj.Class.injEq] at hd
  exact ne_null_of_deref hd1 hd.2.symm

theorem Heap.WF.string_ne_class {h : Heap} (hwf : h.WF) : h.String_class ≠ h.Class_class := by
  obtain ⟨n, hd, hn⟩ := hwf.string
  obtain ⟨n1, hd1, hn1⟩ := hwf.cls
  intro e
  rw [e, hd1] at hd
  simp only [Class.new, Except.ok.injEq, Obj.Class.injEq] at hd
  rw [hd.1, hn] at hn1
  simp only [String.new, Except.ok.injEq, Obj.String.injEq] at hn1
  exact absurd hn1 (by decide)

theorem Heap.WF.inChain_root_iff {h : Heap} (hwf : h.WF) (c : Ref) :
    h.InChain h.AnyRef_class c ↔ c = h.AnyRef_class := by
  obtain ⟨n1, hd1, _⟩ := hwf.root
  rw [InChain_iff]
  constructor
  · rintro (e | ⟨n, p, hd, hp, _⟩)
    · exact e.symm
    · rw [hd1] at hd
      simp only [Class.new, Except.ok.injEq, Obj.Class.injEq] at hd
      exact absurd hd.2.symm hp
  · intro e
    exact Or.inl e.symm

theorem Heap.WF.inChain_string_iff {h : Heap} (hwf : h.WF) (c : Ref) :
    h.InChain h.String_class c ↔ c = h.String_class ∨ c = h.AnyRef_class := by
  obtain ⟨n1, hd1, _⟩ := hwf.root
  obtain ⟨n2, hd2, _⟩ := hwf.string
  rw [InChain_iff]
  constructor
  · rintro (e | ⟨n, p, hd, _, hpc⟩)
    · exact Or.inl e.symm
    · rw [hd2] at hd
      simp only [Class.new, Except.ok.injEq, Obj.Class.injEq] at hd
      rw [← hd.2, hwf.inChain_root_iff] at hpc
      exact Or.inr hpc
  · rintro (e | e)
    · exact Or.inl e.symm
    · exact Or.inr ⟨n2, _, hd2, ne_null_of_deref hd1, (hwf.inChain_root_iff c).mpr e⟩

theorem Heap.WF.inChain_class_iff {h : Heap} (hwf : h.WF) (c : Ref) :
    h.InChain h.Class_class c ↔ c = h.Class_class ∨ c = h.AnyRef_class := by
  obtain ⟨n1, hd1, _⟩ := hwf.root
  obtain ⟨n2, hd2, _⟩ := hwf.cls
  rw [InChain_iff]
  constructor
  · rintro (e | ⟨n, p, hd, _, hpc⟩)
    · exact Or.inl e.symm
    · rw [hd2] at hd
      simp only [Class.new, Except.ok.injEq, Obj.Class.injEq] at hd
      rw [← hd.2, hwf.inChain_root_iff] at hpc
      exact Or.inr hpc
  · rintro (e | e)
    · exact Or.inl e.symm
    · exact Or.inr ⟨n2, _, hd2, ne_null_of_deref hd1, (hwf.inChain_root_iff c).mpr e⟩

theorem Heap.WF.inChain_is_a_root {h : Heap} (hwf : h.WF) (vp : VPtr) :
    h.InChain (h.is_a vp) h.AnyRef_class := by
  cases vp
  · exact .here _
  · exact (hwf.inChain_string_iff _).mpr (Or.inr rfl)
  · exact (hwf.inChain_class_iff _).mpr (Or.inr rfl)

theorem Heap.WF.deref_is_a {h : Heap} (hwf : h.WF) (vp : VPtr) :
    ∃ n p, h.deref (h.is_a vp) = .ok (Class.new n p) := by
  cases vp
  · obtain ⟨n, hd, _⟩ := hwf.root; exact ⟨n, _, hd⟩
  · obtain ⟨n, hd, _⟩ := hwf.string; exact ⟨n, _, hd⟩
  · obtain ⟨n, hd, _⟩ := hwf.cls; exact ⟨n, _, hd⟩

theorem isInstance_true_of_inChain {h : Heap} (hwf : h.WF) {C n p o : Ref} {obj : Obj}
    (hC : h.deref C = .ok (Class.new n p)) (ho : h.deref o = .ok obj) {fuel : Nat}
    (hf : 2 ≤ fuel) (hin : h.InChain (h.is_a obj.vptr) C) :
    Class.isInstance fuel h C o = .ok true := by
  obtain ⟨b, hb, hbi⟩ := isInstance_spec hwf hC ho hf
  rw [hb, hbi.mpr hin]

theorem isInstance_false_of_not_inChain {h : Heap} (hwf : h.WF) {C n p o : Ref} {obj : Obj}
    (hC : h.deref C = .ok (Class.new n p)) (ho : h.deref o = .ok obj) {fuel : Nat}
    (hf : 2 ≤ fuel) (hin : ¬ h.InChain (h.is_a obj.vptr) C) :
    Class.isInstance fuel h C o = .ok false := by
  obtain ⟨b, hb, hbi⟩ := isInstance_spec hwf hC ho hf
  cases b with
  | false => exact hb
  | true => exact absurd (hbi.mp rfl) hin

theorem isInstance_string_of_string {h : Heap} (hwf : h.WF) {s : Ref} {data : List CChar}
    (hs : h.deref s = .ok (String.new data)) {fuel : Nat} (hf : 1 ≤ fuel) :
    Class.isInstance fuel h h.String_class s = .ok true := by
  obtain ⟨n, hd, _⟩ := hwf.string
  obtain ⟨f, rfl⟩ : ∃ f, fuel = f + 1 := ⟨fuel - 1, by omega⟩
  rw [isInstance_eq_loop hs]
  simp [Class.isInstanceLoop, derefClass_of_deref hd, Class_VT_equals, AnyRef.equals,
    String.new, Obj.vptr, Heap.is_a, bind, Except.bind, pure, Except.pure]

theorem equals_of_strings {h : Heap} (hwf : h.WF) {s1 s2 : Ref} {d1 d2 : List CChar}
    (h1 : h.deref s1 = .ok (String.new d1)) (h2 : h.deref s2 = .ok (String.new d2))
    {fuel : Nat} (hf : 1 ≤ fuel) :
    String.equals fuel h s1 s2 = .ok (decide (d1 = d2)) := by
  obtain ⟨n, hd, _⟩ := hwf.string
  simp [String.equals, Class_VT_isInstance, derefClass_of_deref hd,
    isInstance_string_of_string hwf h2 hf, derefString_of_deref h1, derefString_of_deref h2,
    compare_eq_zero_iff, bind, Except.bind, pure, Except.pure]

theorem charAt_guard_iff (len : Nat) (i : Int) (hlo : -2147483648 ≤ i)
    (hhi : i < 2147483648) :
    (0 > i ∨ toUnsigned32 i ≥ len) ↔ (i < 0 ∨ (len : Int) ≤ i) := by
  unfold toUnsigned32
  omega

theorem charAt_fail {h : Heap} {s : Ref} {data : List CChar}
    (hs : h.deref s = .ok (String.new data)) {i : Int}
    (hg : 0 > i ∨ toUnsigned32 i ≥ data.length) :
    String.charAt h s i
      = .error (.out_of_range (lit "Index out of bounds for string " ++ data)) := by
  simp only [String.charAt, derefString_of_deref hs, bind, Except.bind]
  rw [if_pos hg]
  rfl

theorem charAt_ok {h : Heap} {s : Ref} {data : List CChar}
    (hs : h.deref s = .ok (String.new data)) {i : Int}
    (hg : ¬ (0 > i ∨ toUnsigned32 i ≥ data.length)) {c : CChar}
    (hc : data[i.toNat]? = some c) :
    String.charAt h s i = .ok c := by
  simp only [String.charAt, derefString_of_deref hs, bind, Except.bind]
  rw [if_neg hg, hc]
  rfl

theorem isInstance_string_of_other {h : Heap} (hwf : h.WF) {o : Ref} {obj : Obj}
    (ho : h.deref o = .ok obj) (hno : ∀ d, obj ≠ String.new d) {fuel : Nat} (hf : 2 ≤ fuel) :
    Class.isInstance fuel h h.String_class o = .ok false := by
  obtain ⟨n, hk, _⟩ := hwf.string
  apply isInstance_false_of_not_inChain hwf hk ho hf
  cases obj with
  | AnyRef =>
    intro hin
    exact hwf.string_ne_root ((hwf.inChain_root_iff _).mp hin)
  | String d => exact absurd rfl (hno d)
  | Class n' p' =>
    intro hin
    rcases (hwf.inChain_class_iff _).mp hin with e | e
    · exact hwf.string_ne_class e
    · exact hwf.string_ne_root e

theorem toUnsigned32_hashCode (o : Nat) (ho : o < 4294967296) :
    toUnsigned32 (AnyRef.hashCode o) = o := by
  unfold toUnsigned32 AnyRef.hashCode wrap32
  omega

theorem deref_alloc_of_deref {h : Heap} {a p : Ref} {x : Obj} (ha : h.fresh a) (o : Obj)
    (hp : h.deref p = .ok x) : (h.alloc a o).deref p = .ok x := by
  have hpn : p ≠ null := ne_null_of_deref hp
  have hpa : p ≠ a := by
    intro hpa
    subst hpa
    simp [Heap.deref, hpn, ha.2] at hp
  rw [← hp]
  simp [Heap.alloc, deref_cons, hpn, hpa]

theorem Heap.Reachable.wf {h : Heap} (hr : h.Reachable) : h.WF := by
  induction hr with
  | init nObject kObject nString kString nClass kClass hnd => exact staticInit_WF _ _ _ _ _ _ hnd
  | alloc h a o _ ha ih => exact WF_alloc ih ha o

theorem call_hashCode_string (sc : Bool) {h : Heap} {s : Ref} {data : List CChar}
    (hs : h.deref s = .ok (String.new data)) :
    call_hashCode sc h s = String.hashCode sc h s := by
  simp [call_hashCode, vt_hashCode, hs, String.new, Obj.vptr, bind, Except.bind]

theorem call_String_hashCode_string (sc : Bool) {h : Heap} {s : Ref} {data : List CChar}
    (hs : h.deref s = .ok (String.new data)) :
    call_String_hashCode sc h s = String.hashCode sc h s := by
  simp [call_String_hashCode, String_VT_hashCode, derefString_of_deref hs, bind, Except.bind]

theorem call_toString_string {h : Heap} {s : Ref} {data : List CChar}
    (hs : h.deref s = .ok (String.new data)) (a : Ref) :
    call_toString h s a = .ok (h, s) := by
  simp [call_toString, vt_toString, String.toString, hs, String.new, Obj.vptr, bind,
    Except.bind, pure, Except.pure]

theorem call_length_string {h : Heap} {s : Ref} {data : List CChar}
    (hs : h.deref s = .ok (String.new data)) :
    call_length h s = .ok (wrap32 (data.length : Int)) := by
  simp [call_length, String_VT_length, String.length, derefString_of_deref hs, bind,
    Except.bind, pure, Except.pure]

theorem call_charAt_string {h : Heap} {s : Ref} {data : List CChar}
    (hs : h.deref s = .ok (String.new data)) (i : Int) :
    call_charAt h s i = String.charAt h s i := by
  simp [call_charAt, String_VT_charAt, derefString_of_deref hs, bind, Except.bind]

theorem call_equals_string {h : Heap} {s : Ref} {data : List CChar}
    (hs : h.deref s = .ok (String.new data)) (fuel : Nat) (o : Ref) :
    call_equals fuel h s o = String.equals fuel h s o := by
  simp [call_equals, vt_equals, hs, String.new, Obj.vptr, bind, Except.bind]

theorem specRollingHash_hello (sc : Bool) : specRollingHash sc (lit "Hello") = 69609650 := by
  cases sc <;> rfl

theorem call_getName_of_deref {h : Heap} {k n p : Ref}
    (hk : h.deref k = .ok (Class.new n p)) : call_getName h k = .ok n := by
  simp [call_getName, Class_VT_getName, Class.getName, derefClass_of_deref hk, bind,
    Except.bind, pure, Except.pure]

theorem call_getSuperclass_of_deref {h : Heap} {k n p : Ref}
    (hk : h.deref k = .ok (Class.new n p)) : call_getSuperclass h k = .ok p := by
  simp [call_getSuperclass, Class_VT_getSuperclass, Class.getSuperclass,
    derefClass_of_deref hk, bind, Except.bind, pure, Except.pure]

theorem describes_calls {h : Heap} {k parent : Ref} {name : List CChar}
    (hd : h.describes k name parent) :
    (∃ n, call_getName h k = .ok n ∧ h.derefString n = .ok name)
    ∧ call_getSuperclass h k = .ok parent := by
  obtain ⟨n, hk, hn⟩ := hd
  exact ⟨⟨n, call_getName_of_deref hk, derefString_of_deref hn⟩,
    call_getSuperclass_of_deref hk⟩

theorem ChainLen_unique {h : Heap} {k : Ref} {m m' : Nat} (hm : h.ChainLen k m)
    (hm' : h.ChainLen k m') : m = m' := by
  induction hm generalizing m' with
  | last k n hk =>
    cases hm' with
    | last _ n' hk' => rfl
    | step _ n' p' j hk' hp' _ =>
      rw [hk] at hk'
      simp only [Class.new, Except.ok.injEq, Obj.Class.injEq] at hk'
      exact absurd hk'.2.symm hp'
  | step k n p j hk hp _ ih =>
    cases hm' with
    | last _ n' hk' =>
      rw [hk] at hk'
      simp only [Class.new, Except.ok.injEq, Obj.Class.injEq] at hk'
      exact absurd hk'.2 hp
    | step _ n' p' j' hk' _ hj' =>
      rw [hk] at hk'
      simp only [Class.new, Except.ok.injEq, Obj.Class.injEq] at hk'
      rw [← hk'.2] at hj'
      rw [ih hj']

theorem demoHeap_Reachable : demoHeap.Reachable :=
  .alloc _ _ _ (.init _ _ _ _ _ _ (by decide)) ⟨by decide, rfl⟩

theorem wrap32_emod (x : Int) : wrap32 x % 4294967296 = x % 4294967296 := by
  unfold wrap32
  omega

theorem wrap32_congr {x y : Int} (hxy : x % 4294967296 = y % 4294967296) :
    wrap32 x = wrap32 y := by
  unfold wrap32
  omega

theorem wrap32_idem (x : Int) : wrap32 (wrap32 x) = wrap32 x :=
  wrap32_congr (wrap32_emod x)

theorem exact_foldl_acc (sc : Bool) (b : List CChar) (acc : Int) :
    b.foldl (fun acc c => 31 * acc + charVal sc c) acc
      = acc * 31 ^ b.length + b.foldl (fun acc c => 31 * acc + charVal sc c) 0 := by
  induction b generalizing acc with
  | nil => simp
  | cons c rest ih =>
    simp only [List.foldl_cons, List.length_cons]
    rw [ih (31 * acc + charVal sc c), ih (31 * 0 + charVal sc c)]
    ring

theorem exactPolynomial_append (sc : Bool) (a b : List CChar) :
    exactPolynomial sc (a ++ b)
      = exactPolynomial sc a * 31 ^ b.length + exactPolynomial sc b := by
  simp only [exactPolynomial, List.foldl_append]
  exact exact_foldl_acc sc b _

theorem specRollingHash_eq_wrap (sc : Bool) (data : List CChar) :
    specRollingHash sc data = wrap32 (exactPolynomial sc data) :=
  foldl_wrap_exact sc data 0 0 (by decide)

theorem specRollingHash_append (sc : Bool) (a b : List CChar) :
    specRollingHash sc (a ++ b)
      = wrap32 (specRollingHash sc a * 31 ^ b.length + specRollingHash sc b) := by
  rw [specRollingHash_eq_wrap sc (a ++ b), specRollingHash_eq_wrap sc a,
    specRollingHash_eq_wrap sc b, exactPolynomial_append]
  apply wrap32_congr
  have ha : wrap32 (exactPolynomial sc a) ≡ exactPolynomial sc a [ZMOD 4294967296] :=
    wrap32_emod _
  have hb : wrap32 (exactPolynomial sc b) ≡ exactPolynomial sc b [ZMOD 4294967296] :=
    wrap32_emod _
  exact ((ha.mul_right (31 ^ b.length)).add hb).symm

theorem specRollingHash_snoc (sc : Bool) (a : List CChar) (c : CChar) :
    specRollingHash sc (a ++ [c]) = wrap32 (31 * specRollingHash sc a + charVal sc c) := by
  simp [specRollingHash, List.foldl_append]

/-! ## Claims -/

/-- C1: `String.hashCode` of a string is the rolling hash of its payload, the
fold of `hash := 31*hash + c` from 0 over the characters in order in wrapping
32-bit signed arithmetic (the 32-bit image of the exact polynomial); the
payload "Hello" hashes to 31*(31*(31*(31*72+101)+108)+108)+111 = 69609650 and
the empty payload to 0. -/
theorem C1_hashCode_rolling (sc : Bool) (h : Heap) (s : Ref) (data : List CChar)
    (hs : h.deref s = .ok (String.new data)) :
    String.hashCode sc h s = .ok (specRollingHash sc data)
    ∧ specRollingHash sc data = wrap32 (exactPolynomial sc data)
    ∧ (data = lit "Hello" →
        String.hashCode sc h s = .ok (31 * (31 * (31 * (31 * 72 + 101) + 108) + 108) + 111)
        ∧ String.hashCode sc h s = .ok 69609650)
    ∧ (data = [] → String.hashCode sc h s = .ok 0) := by
  refine ⟨hashCode_of_deref sc hs, foldl_wrap_exact sc data 0 0 (by decide), ?_, ?_⟩
  · intro hd
    subst hd
    rw [hashCode_of_deref sc hs]
    cases sc <;> exact ⟨rfl, rfl⟩
  · intro hd
    subst hd
    rw [hashCode_of_deref sc hs]
    rfl

/-- Witness for C1: the string "Hello" of the sample state. -/
theorem C1_hashCode_rolling_witness :
    demoHeap.deref 4304 = .ok (String.new (lit "Hello"))
    ∧ String.hashCode true demoHeap 4304 = .ok 69609650 :=
  ⟨rfl, ((C1_hashCode_rolling true demoHeap 4304 (lit "Hello") rfl).2.2.1 rfl).2⟩


/-- C2: for String objects `s1` and `s2`, the same or different instances,
`String.equals(s1, s2)` returns, and returns true if and only if the two
payloads are the same character sequence. -/
theorem C2_equals_iff_same_payload (fuel : Nat) (h : Heap) (hwf : h.WF) (s1 s2 : Ref)
    (d1 d2 : List CChar) (h1 : h.deref s1 = .ok (String.new d1))
    (h2 : h.deref s2 = .ok (String.new d2)) (hf : 1 ≤ fuel) :
    (∃ b, String.equals fuel h s1 s2 = .ok b)
    ∧ (String.equals fuel h s1 s2 = .ok true ↔ d1 = d2) := by
  rw [equals_of_strings hwf h1 h2 hf]
  exact ⟨⟨_, rfl⟩, by simp⟩

/-- Witness for C2: two distinct instances holding "Hello". -/
theorem C2_equals_iff_same_payload_witness :
    (∃ b, String.equals 2 demoHeap2 4304 4336 = .ok b)
    ∧ (String.equals 2 demoHeap2 4304 4336 = .ok true ↔ lit "Hello" = lit "Hello") :=
  C2_equals_iff_same_payload 2 demoHeap2 demoHeap2_WF 4304 4336 (lit "Hello") (lit "Hello")
    rfl rfl (by decide)

/-- C3: for a Class descriptor `C` and a valid object `o`, `C.isInstance(o)`
returns; it returns true if and only if `C` is the runtime class of `o` (the
result of `getClass` called through the vtable of `o`) or a descriptor reached
from it along non-null `getSuperclass` links, and false exactly when the
chain runs into null without a match. -/
theorem C3_isInstance_ancestor_walk (fuel : Nat) (h : Heap) (hwf : h.WF) (C n p o : Ref)
    (obj : Obj) (hC : h.deref C = .ok (Class.new n p)) (ho : h.deref o = .ok obj)
    (hf : 2 ≤ fuel) :
    ∃ k, call_getClass h o = .ok k
      ∧ (Class.isInstance fuel h C o = .ok true ↔ h.InChain k C)
      ∧ (Class.isInstance fuel h C o = .ok false ↔ ¬ h.InChain k C) := by
  refine ⟨h.is_a obj.vptr, call_getClass_of_deref ho, ?_, ?_⟩
  · constructor
    · intro ht
      obtain ⟨b, hb, hbi⟩ := isInstance_spec hwf hC ho hf
      rw [hb] at ht
      exact hbi.mp (by simpa using ht)
    · exact isInstance_true_of_inChain hwf hC ho hf
  · constructor
    · intro ht hin
      rw [isInstance_true_of_inChain hwf hC ho hf hin] at ht
      simp at ht
    · exact isInstance_false_of_not_inChain hwf hC ho hf

/-- Witness for C3: the root descriptor and the string "Hello". -/
theorem C3_isInstance_ancestor_walk_witness :
    ∃ k, call_getClass demoHeap 4304 = .ok k
      ∧ (Class.isInstance 2 demoHeap 4144 4304 = .ok true ↔ demoHeap.InChain k 4144)
      ∧ (Class.isInstance 2 demoHeap 4144 4304 = .ok false ↔ ¬ demoHeap.InChain k 4144) :=
  C3_isInstance_ancestor_walk 2 demoHeap demoHeap_WF 4144 4112 null 4304 _ rfl rfl (by decide)

/-- C4: for every object `o` (a bare root-type instance, a String or a Class
descriptor), `o.getClass().isInstance(o)` is true, both calls going through
vtable slots. -/
theorem C4_getClass_isInstance (fuel : Nat) (h : Heap) (hwf : h.WF) (o : Ref) (obj : Obj)
    (ho : h.deref o = .ok obj) (hf : 2 ≤ fuel) :
    ∃ k, call_getClass h o = .ok k ∧ call_isInstance fuel h k o = .ok true := by
  obtain ⟨n, p, hk⟩ := hwf.deref_is_a obj.vptr
  refine ⟨h.is_a obj.vptr, call_getClass_of_deref ho, ?_⟩
  rw [call_isInstance_eq hk]
  exact isInstance_true_of_inChain hwf hk ho hf (.here _)

/-- Witness for C4: the descriptor of Class, an object in its own right. -/
theorem C4_getClass_isInstance_witness :
    ∃ k, call_getClass demoHeap 4272 = .ok k ∧ call_isInstance 2 demoHeap k 4272 = .ok true :=
  C4_getClass_isInstance 2 demoHeap demoHeap_WF 4272 _ rfl (by decide)

/-- C5: for every object `o` (a bare root-type instance, a String or a Class
descriptor), the root Class descriptor answers `isInstance(o)` with true. -/
theorem C5_root_isInstance_all (fuel : Nat) (h : Heap) (hwf : h.WF) (o : Ref) (obj : Obj)
    (ho : h.deref o = .ok obj) (hf : 2 ≤ fuel) :
    call_isInstance fuel h h.AnyRef_class o = .ok true := by
  obtain ⟨n, hk, _⟩ := hwf.root
  rw [call_isInstance_eq hk]
  exact isInstance_true_of_inChain hwf hk ho hf (hwf.inChain_is_a_root _)

/-- Witness for C5: a Class descriptor, two links below the root. -/
theorem C5_root_isInstance_all_witness :
    call_isInstance 2 demoHeap demoHeap.AnyRef_class 4208 = .ok true :=
  C5_root_isInstance_all 2 demoHeap demoHeap_WF 4208 _ rfl (by decide)

/-- C6: the String descriptor answers `isInstance` with true for every String
instance and with false for every bare root-type instance; the root
descriptor answers true for both. -/
theorem C6_string_vs_root_isInstance (fuel : Nat) (h : Heap) (hwf : h.WF) (s r : Ref)
    (data : List CChar) (hs : h.deref s = .ok (String.new data))
    (hr : h.deref r = .ok AnyRef.new) (hf : 2 ≤ fuel) :
    call_isInstance fuel h h.String_class s = .ok true
    ∧ call_isInstance fuel h h.String_class r = .ok false
    ∧ call_isInstance fuel h h.AnyRef_class s = .ok true
    ∧ call_isInstance fuel h h.AnyRef_class r = .ok true := by
  obtain ⟨n1, hk1, _⟩ := hwf.root
  obtain ⟨n2, hk2, _⟩ := hwf.string
  rw [call_isInstance_eq hk1, call_isInstance_eq hk1, call_isInstance_eq hk2,
    call_isInstance_eq hk2]
  refine ⟨isInstance_true_of_inChain hwf hk2 hs hf (.here _),
    isInstance_false_of_not_inChain hwf hk2 hr hf ?_,
    isInstance_true_of_inChain hwf hk1 hs hf (hwf.inChain_is_a_root _),
    isInstance_true_of_inChain hwf hk1 hr hf (hwf.inChain_is_a_root _)⟩
  intro hin
  exact hwf.string_ne_root ((hwf.inChain_root_iff _).mp hin)

/-- Witness for C6: the string "Hello" and the bare object of the later
sample state. -/
theorem C6_string_vs_root_isInstance_witness :
    call_isInstance 2 demoHeap2 demoHeap2.String_class 4304 = .ok true
    ∧ call_isInstance 2 demoHeap2 demoHeap2.String_class 4400 = .ok false
    ∧ call_isInstance 2 demoHeap2 demoHeap2.AnyRef_class 4304 = .ok true
    ∧ call_isInstance 2 demoHeap2 demoHeap2.AnyRef_class 4400 = .ok true :=
  C6_string_vs_root_isInstance 2 demoHeap2 demoHeap2_WF 4304 4400 (lit "Hello") rfl rfl
    (by decide)

/-- C7: for a String `s` and a 32-bit signed index `i`, `charAt(s, i)` throws
the out-of-range error if and only if `i < 0` or `i` is at least the number of
characters of the payload (the value `length(s)` returns, for payloads below
2^31 characters); otherwise it returns the character at 0-based position `i`.
On a payload of 5 characters the indices 5 and -1 fail and 0..4 return the
character at that position. -/
theorem C7_charAt_bounds (h : Heap) (s : Ref) (data : List CChar)
    (hs : h.deref s = .ok (String.new data)) (i : Int) (hlo : -2147483648 ≤ i)
    (hhi : i < 2147483648) :
    ((∃ msg, String.charAt h s i = .error (.out_of_range msg))
        ↔ (i < 0 ∨ (data.length : Int) ≤ i))
    ∧ ((∃ e, String.charAt h s i = .error e) ↔ (i < 0 ∨ (data.length : Int) ≤ i))
    ∧ (¬ (i < 0 ∨ (data.length : Int) ≤ i) →
        ∃ c, data[i.toNat]? = some c ∧ String.charAt h s i = .ok c)
    ∧ (data.length < 2147483648 → String.length h s = .ok (data.length : Int))
    ∧ (data.length = 5 →
        (∃ msg, String.charAt h s 5 = .error (.out_of_range msg))
        ∧ (∃ msg, String.charAt h s (-1) = .error (.out_of_range msg))
        ∧ ∀ j : Nat, j < 5 → ∃ c, data[j]? = some c ∧ String.charAt h s (j : Int) = .ok c) := by
  have good : ∀ j : Int, -2147483648 ≤ j → j < 2147483648 →
      ¬ (j < 0 ∨ (data.length : Int) ≤ j) →
      ∃ c, data[j.toNat]? = some c ∧ String.charAt h s j = .ok c := by
    intro j hjlo hjhi hj
    have hlt : j.toNat < data.length := by omega
    refine ⟨data[j.toNat], List.getElem?_eq_getElem hlt, ?_⟩
    exact charAt_ok hs (fun hg => hj ((charAt_guard_iff _ j hjlo hjhi).mp hg))
      (List.getElem?_eq_getElem hlt)
  have bad : ∀ j : Int, -2147483648 ≤ j → j < 2147483648 →
      (j < 0 ∨ (data.length : Int) ≤ j) →
      String.charAt h s j
        = .error (.out_of_range (lit "Index out of bounds for string " ++ data)) := by
    intro j hjlo hjhi hj
    exact charAt_fail hs ((charAt_guard_iff _ j hjlo hjhi).mpr hj)
  refine ⟨⟨?_, fun hi => ⟨_, bad i hlo hhi hi⟩⟩, ⟨?_, fun hi => ⟨_, bad i hlo hhi hi⟩⟩,
    good i hlo hhi, ?_, ?_⟩
  · rintro ⟨msg, hm⟩
    by_contra hi
    obtain ⟨c, _, hc⟩ := good i hlo hhi hi
    rw [hc] at hm
    simp at hm
  · rintro ⟨e, hm⟩
    by_contra hi
    obtain ⟨c, _, hc⟩ := good i hlo hhi hi
    rw [hc] at hm
    simp at hm
  · intro hlen
    have hw : wrap32 (data.length : Int) = (data.length : Int) := by
      unfold wrap32
      omega
    simp only [String.length, derefString_of_deref hs, bind, Except.bind, pure, Except.pure, hw]
  · intro hlen
    refine ⟨⟨_, bad 5 (by omega) (by omega) (by omega)⟩,
      ⟨_, bad (-1) (by omega) (by omega) (by omega)⟩, ?_⟩
    intro j hj
    obtain ⟨c, hc, hr⟩ := good (j : Int) (by omega) (by omega) (by omega)
    exact ⟨c, by simpa using hc, hr⟩

/-- Witness for C7: index 4 of the string "Hello". -/
theorem C7_charAt_bounds_witness :
    demoHeap.deref 4304 = .ok (String.new (lit "Hello"))
    ∧ String.charAt demoHeap 4304 4 = .ok 111
    ∧ ∃ msg, String.charAt demoHeap 4304 5 = .error (.out_of_range msg) :=
  ⟨rfl, rfl,
    ((C7_charAt_bounds demoHeap 4304 (lit "Hello") rfl 4 (by decide) (by decide)).2.2.2.2
      rfl).1⟩

/-- C8: for a String `s` and an object `o` that is not a String (a bare
root-type instance or a Class descriptor), the String descriptor answers
`isInstance(o)` with false through its vtable slot and `String.equals(s, o)`
returns false instead of failing. -/
theorem C8_equals_other_type (fuel : Nat) (h : Heap) (hwf : h.WF) (s o : Ref)
    (data : List CChar) (obj : Obj) (_hs : h.deref s = .ok (String.new data))
    (ho : h.deref o = .ok obj) (hno : ∀ d, obj ≠ String.new d) (hf : 2 ≤ fuel) :
    call_isInstance fuel h h.String_class o = .ok false
    ∧ String.equals fuel h s o = .ok false := by
  obtain ⟨n, hk, _⟩ := hwf.string
  have hi := isInstance_string_of_other hwf ho hno hf
  refine ⟨by rw [call_isInstance_eq hk, hi], ?_⟩
  simp [String.equals, Class_VT_isInstance, derefClass_of_deref hk, hi, bind, Except.bind,
    pure, Except.pure]

/-- Witness for C8: the string "Hello" against the descriptor of String. -/
theorem C8_equals_other_type_witness :
    call_isInstance 2 demoHeap demoHeap.String_class 4208 = .ok false
    ∧ String.equals 2 demoHeap 4304 4208 = .ok false :=
  C8_equals_other_type 2 demoHeap demoHeap_WF 4304 4208 (lit "Hello") _ rfl rfl
    (by intro d; simp [Class.new, String.new]) (by decide)

/-- C9: for String objects `s1` and `s2`, if `String.equals(s1, s2)` is true
then the payloads are the same character sequence and `String.hashCode`
returns the same value for both, whether or not they are the same object. -/
theorem C9_equals_implies_same_hash (fuel : Nat) (sc : Bool) (h : Heap) (s1 s2 : Ref)
    (d1 d2 : List CChar) (h1 : h.deref s1 = .ok (String.new d1))
    (h2 : h.deref s2 = .ok (String.new d2))
    (heq : String.equals fuel h s1 s2 = .ok true) :
    d1 = d2 ∧ ∃ v, String.hashCode sc h s1 = .ok v ∧ String.hashCode sc h s2 = .ok v := by
  have hd : d1 = d2 := by
    simp only [String.equals, derefString_of_deref h1, derefString_of_deref h2, bind,
      Except.bind, pure, Except.pure] at heq
    split at heq
    · simp at heq
    · split at heq
      · simp at heq
      · split at heq
        · simp at heq
        · simp only [Except.ok.injEq, decide_eq_true_eq] at heq
          exact (compare_eq_zero_iff d1 d2).mp heq
  subst hd
  exact ⟨rfl, _, hashCode_of_deref sc h1, hashCode_of_deref sc h2⟩

/-- Witness for C9: two distinct instances holding "Hello". -/
theorem C9_equals_implies_same_hash_witness :
    String.equals 2 demoHeap2 4304 4336 = .ok true
    ∧ ∃ v, String.hashCode true demoHeap2 4304 = .ok v
        ∧ String.hashCode true demoHeap2 4336 = .ok v :=
  ⟨rfl, (C9_equals_implies_same_hash 2 true demoHeap2 4304 4336 (lit "Hello") (lit "Hello")
    rfl rfl rfl).2⟩

/-- C10 as stated fails: for the bare root-type object at address 2^32 + 16
the text produced by the root `toString` ends in the digits of the address,
"100000010", while the hash code obtained through the vtable is 16, whose
hexadecimal form is "10". -/
theorem C10_toString_hash_counterexample :
    ¬ ∃ h' r k n name hc,
        AnyRef.toString highHeap 4294967312 8192 = .ok (h', r)
        ∧ call_getClass highHeap 4294967312 = .ok k
        ∧ Class_VT_getName highHeap k = .ok n
        ∧ highHeap.derefString n = .ok name
        ∧ call_hashCode true highHeap 4294967312 = .ok hc
        ∧ h'.derefString r = .ok (name ++ lit "@" ++ hexDigits (toUnsigned32 hc)) := by
  rintro ⟨h', r, k, n, name, hc, ht, hk, hn, hname, hhc, htext⟩
  have e1 : AnyRef.toString highHeap 4294967312 8192
      = .ok (highHeap.alloc 8192 (String.new (lit "java.lang.Object@100000010")), 8192) := rfl
  have e2 : call_getClass highHeap 4294967312 = .ok 4144 := rfl
  have e5 : call_hashCode true highHeap 4294967312 = .ok 16 := rfl
  rw [e1] at ht
  rw [e2] at hk
  rw [e5] at hhc
  simp only [Except.ok.injEq, Prod.mk.injEq] at ht hk hhc
  obtain ⟨rfl, rfl⟩ := ht
  subst hk
  subst hhc
  have e3 : Class_VT_getName highHeap 4144 = .ok 4112 := rfl
  rw [e3] at hn
  simp only [Except.ok.injEq] at hn
  subst hn
  have e4 : highHeap.derefString 4112 = .ok (lit "java.lang.Object") := rfl
  rw [e4] at hname
  simp only [Except.ok.injEq] at hname
  subst hname
  have e6 : (highHeap.alloc 8192 (String.new (lit "java.lang.Object@100000010"))).derefString
      8192 = .ok (lit "java.lang.Object@100000010") := rfl
  rw [e6] at htext
  simp only [Except.ok.injEq] at htext
  exact absurd htext (by decide)

/-- C10, amended: for a bare root-type object `o` the root `toString`, reached
through the `toString` slot of the vtable of `o`, returns a new String whose
text is the name of `o.getClass()` (class and name fetched through the
`getClass` and `getName` slots), then '@', then the hexadecimal digits of the
address of `o`; `hashCode` is not called, and for an address below 2^32 those
digits are the hexadecimal form of the 32-bit value `hashCode` returns. -/
theorem C10_toString_address (h : Heap) (hwf : h.WF) (o a : Ref)
    (ho : h.deref o = .ok AnyRef.new) (ha : h.fresh a) :
    ∃ k n name, call_getClass h o = .ok k
      ∧ Class_VT_getName h k = .ok n
      ∧ h.derefString n = .ok name
      ∧ call_toString h o a = AnyRef.toString h o a
      ∧ AnyRef.toString h o a
          = .ok (h.alloc a (String.new (name ++ lit "@" ++ hexDigits o)), a)
      ∧ (h.alloc a (String.new (name ++ lit "@" ++ hexDigits o))).derefString a
          = .ok (name ++ lit "@" ++ hexDigits o)
      ∧ (∀ sc, o < 4294967296 →
          ∃ hc, call_hashCode sc h o = .ok hc ∧ hexDigits (toUnsigned32 hc) = hexDigits o) := by
  obtain ⟨n, hk, hn⟩ := hwf.root
  have hname : Class_VT_getName h h.AnyRef_class = .ok n := by
    simp [Class_VT_getName, Class.getName, derefClass_of_deref hk, bind, Except.bind, pure,
      Except.pure]
  refine ⟨h.AnyRef_class, n, lit "java.lang.Object", call_getClass_of_deref ho, hname,
    derefString_of_deref hn, ?_, ?_, derefString_of_deref (deref_alloc_self h ha.1 _), ?_⟩
  · simp [call_toString, vt_toString, ho, AnyRef.new, Obj.vptr, bind, Except.bind]
  · simp [AnyRef.toString, vt_getClass, AnyRef.getClass, ho, AnyRef.new, Obj.vptr, Heap.is_a,
      derefClass_of_deref hk, hname, derefString_of_deref hn, bind, Except.bind, pure,
      Except.pure]
  · intro sc hlt
    refine ⟨AnyRef.hashCode o, ?_, by rw [toUnsigned32_hashCode o hlt]⟩
    simp [call_hashCode, vt_hashCode, ho, AnyRef.new, Obj.vptr, bind, Except.bind, pure,
      Except.pure]

/-- Witness for C10: the bare object of the later sample state. -/
theorem C10_toString_address_witness :
    ∃ k n name, call_getClass demoHeap2 4400 = .ok k
      ∧ Class_VT_getName demoHeap2 k = .ok n
      ∧ demoHeap2.derefString n = .ok name
      ∧ call_toString demoHeap2 4400 8192 = AnyRef.toString demoHeap2 4400 8192
      ∧ AnyRef.toString demoHeap2 4400 8192
          = .ok (demoHeap2.alloc 8192 (String.new (name ++ lit "@" ++ hexDigits 4400)), 8192)
      ∧ (demoHeap2.alloc 8192 (String.new (name ++ lit "@" ++ hexDigits 4400))).derefString 8192
          = .ok (name ++ lit "@" ++ hexDigits 4400)
      ∧ (∀ sc, 4400 < 4294967296 →
          ∃ hc, call_hashCode sc demoHeap2 4400 = .ok hc
            ∧ hexDigits (toUnsigned32 hc) = hexDigits 4400) :=
  C10_toString_address demoHeap2 demoHeap2_WF 4400 8192 rfl ⟨by decide, rfl⟩

/-- C11: a String `s` seen through the four base slots (the same reference,
dispatched by its own vtable) gives for `hashCode` the value of
`String.hashCode(s)`, the content hash, and for `toString` a String equal by
content to `s` (the object `s` itself); for the payload "Hello" both hash
codes are 69609650, `length` is 5 and `charAt(0)` is 'H' (byte 72), and
`main` writes 69609650, Hello, 5, 69609650. -/
theorem C11_string_through_base_slots (fuel : Nat) (sc : Bool) (h : Heap) (hwf : h.WF)
    (s : Ref) (data : List CChar) (hs : h.deref s = .ok (String.new data))
    (hf : 1 ≤ fuel) :
    call_hashCode sc h s = String.hashCode sc h s
    ∧ call_hashCode sc h s = .ok (specRollingHash sc data)
    ∧ (∀ a, ∃ r, call_toString h s a = .ok (h, r) ∧ h.derefString r = .ok data
        ∧ String.equals fuel h r s = .ok true ∧ String.equals fuel h s r = .ok true)
    ∧ (data = lit "Hello" →
        call_hashCode sc h s = .ok 69609650 ∧ call_String_hashCode sc h s = .ok 69609650
        ∧ call_length h s = .ok 5 ∧ call_charAt h s 0 = .ok 72)
    ∧ (∀ a0 a1, h.fresh a0 → main sc h a0 a1 = .ok (69609650, lit "Hello", 5, 69609650)) := by
  refine ⟨call_hashCode_string sc hs, ?_, ?_, ?_, ?_⟩
  · rw [call_hashCode_string sc hs, hashCode_of_deref sc hs]
  · intro a
    refine ⟨s, call_toString_string hs a, derefString_of_deref hs, ?_, ?_⟩ <;>
      simp [equals_of_strings hwf hs hs hf]
  · intro hd
    subst hd
    refine ⟨?_, ?_, ?_, ?_⟩
    · rw [call_hashCode_string sc hs, hashCode_of_deref sc hs, specRollingHash_hello]
    · rw [call_String_hashCode_string sc hs, hashCode_of_deref sc hs, specRollingHash_hello]
    · rw [call_length_string hs]
      rfl
    · rw [call_charAt_string hs]
      exact charAt_ok hs (by decide) rfl
  · intro a0 a1 ha0
    have h0 : (h.alloc a0 (String.new (lit "Hello"))).deref a0
        = .ok (String.new (lit "Hello")) := deref_alloc_self h ha0.1 _
    have hw : wrap32 ((lit "Hello").length : Int) = 5 := rfl
    simp only [main, call_hashCode_string sc h0, hashCode_of_deref sc h0,
      specRollingHash_hello, call_toString_string h0, derefString_of_deref h0,
      call_length_string h0, call_String_hashCode_string sc h0, hw, bind, Except.bind, pure,
      Except.pure]

/-- Witness for C11: the string "Hello" of the sample state, as in `main`. -/
theorem C11_string_through_base_slots_witness :
    call_hashCode true demoHeap 4304 = .ok 69609650
    ∧ call_String_hashCode true demoHeap 4304 = .ok 69609650
    ∧ call_length demoHeap 4304 = .ok 5 ∧ call_charAt demoHeap 4304 0 = .ok 72 :=
  (C11_string_through_base_slots 2 true demoHeap demoHeap_WF 4304 (lit "Hello") rfl
    (by decide)).2.2.2.1 rfl

/-- C12: for every text `t`, `toString` called on a String constructed from
`t` returns that same object and leaves the state unchanged, and the result
satisfies `equals` against a second String freshly constructed from `t`. -/
theorem C12_toString_roundtrip (fuel : Nat) (h : Heap) (hwf : h.WF) (t : List CChar)
    (a1 a2 a : Ref) (h1 : h.fresh a1) (h2 : (h.alloc a1 (String.new t)).fresh a2)
    (hf : 1 ≤ fuel) :
    String.toString a1 = a1
    ∧ call_toString (h.alloc a1 (String.new t)) a1 a = .ok (h.alloc a1 (String.new t), a1)
    ∧ String.equals fuel ((h.alloc a1 (String.new t)).alloc a2 (String.new t))
        (String.toString a1) a2 = .ok true
    ∧ call_equals fuel ((h.alloc a1 (String.new t)).alloc a2 (String.new t))
        (String.toString a1) a2 = .ok true := by
  have hs1 : (h.alloc a1 (String.new t)).deref a1 = .ok (String.new t) :=
    deref_alloc_self h h1.1 _
  have hs1' : ((h.alloc a1 (String.new t)).alloc a2 (String.new t)).deref a1
      = .ok (String.new t) := deref_alloc_of_deref h2 _ hs1
  have hs2 : ((h.alloc a1 (String.new t)).alloc a2 (String.new t)).deref a2
      = .ok (String.new t) := deref_alloc_self _ h2.1 _
  have hwf2 : ((h.alloc a1 (String.new t)).alloc a2 (String.new t)).WF :=
    WF_alloc (WF_alloc hwf h1 _) h2 _
  have he := equals_of_strings hwf2 hs1' hs2 hf
  refine ⟨rfl, call_toString_string hs1 a, ?_, ?_⟩
  · simpa [String.toString] using he
  · rw [String.toString, call_equals_string hs1']
    simpa using he

/-- Witness for C12: the text "Hello" constructed twice after static
initialisation. -/
theorem C12_toString_roundtrip_witness :
    String.equals 2
      (((staticInit 4112 4144 4176 4208 4240 4272).alloc 4304 (String.new (lit "Hello"))).alloc
        4336 (String.new (lit "Hello")))
      (String.toString 4304) 4336 = .ok true :=
  (C12_toString_roundtrip 2 (staticInit 4112 4144 4176 4208 4240 4272)
    (staticInit_WF _ _ _ _ _ _ (by decide)) (lit "Hello") 4304 4336 8192
    ⟨by decide, rfl⟩ ⟨by decide, rfl⟩ (by decide)).2.2.1

/-- C13: for `self` a bare root-type object or a Class descriptor (whose table
binds the root implementation) and any reference `other`, `equals(self,
other)` called through the vtable returns, and returns true if and only if
`other` is the same reference as `self`; two distinct objects are never
equal. -/
theorem C13_root_equals_identity (fuel : Nat) (h : Heap) (self other : Ref)
    (hself : h.deref self = .ok AnyRef.new ∨ ∃ n p, h.deref self = .ok (Class.new n p)) :
    call_equals fuel h self other = .ok (AnyRef.equals self other)
    ∧ (call_equals fuel h self other = .ok true ↔ other = self)
    ∧ (other ≠ self → call_equals fuel h self other = .ok false) := by
  have hc : call_equals fuel h self other = .ok (AnyRef.equals self other) := by
    rcases hself with hs | ⟨n, p, hs⟩ <;>
      simp [call_equals, vt_equals, Class_VT_equals, hs, AnyRef.new, Class.new, Obj.vptr, bind,
        Except.bind, pure, Except.pure]
  refine ⟨hc, ?_, ?_⟩
  · rw [hc]
    simp [AnyRef.equals, eq_comm]
  · intro hne
    rw [hc]
    simp [AnyRef.equals, Ne.symm hne]

/-- Witness for C13: the descriptor of String against the root descriptor. -/
theorem C13_root_equals_identity_witness :
    call_equals 2 demoHeap2 4208 4144 = .ok false :=
  (C13_root_equals_identity 2 demoHeap2 4208 4144 (Or.inr ⟨4176, 4144, rfl⟩)).2.2 (by decide)

/-- C14: in every state of the program the root descriptor has the name
"java.lang.Object" and the canonical null value as superclass, the String
descriptor the name "java.lang.String" and the root descriptor as superclass,
and the descriptor of Class the name "java.lang.Class" and the root
descriptor as superclass, as read through the `getName` and `getSuperclass`
slots. -/
theorem C14_descriptor_names_parents (h : Heap) (hr : h.Reachable) :
    ((∃ n, call_getName h h.AnyRef_class = .ok n
        ∧ h.derefString n = .ok (lit "java.lang.Object"))
      ∧ call_getSuperclass h h.AnyRef_class = .ok null)
    ∧ ((∃ n, call_getName h h.String_class = .ok n
        ∧ h.derefString n = .ok (lit "java.lang.String"))
      ∧ call_getSuperclass h h.String_class = .ok h.AnyRef_class)
    ∧ ((∃ n, call_getName h h.Class_class = .ok n
        ∧ h.derefString n = .ok (lit "java.lang.Class"))
      ∧ call_getSuperclass h h.Class_class = .ok h.AnyRef_class) :=
  ⟨describes_calls hr.wf.root, describes_calls hr.wf.string, describes_calls hr.wf.cls⟩

/-- Witness for C14: the sample state, where the String descriptor sits at
4208 and the root descriptor at 4144. -/
theorem C14_descriptor_names_parents_witness :
    (∃ n, call_getName demoHeap 4208 = .ok n
        ∧ demoHeap.derefString n = .ok (lit "java.lang.String"))
      ∧ call_getSuperclass demoHeap 4208 = .ok 4144 :=
  (C14_descriptor_names_parents demoHeap demoHeap_Reachable).2.1

/-- C15: `getClass` returns the `__is_a` entry of the vtable of the object:
the `getClass` slot of the String vtable is the root implementation, every
String yields the one String descriptor, every bare root-type instance the
root descriptor, and every Class descriptor the descriptor of Class. -/
theorem C15_getClass_from_vtable (h : Heap) (o s r c n p : Ref) (obj : Obj)
    (data : List CChar) (ho : h.deref o = .ok obj)
    (hs : h.deref s = .ok (String.new data)) (hr : h.deref r = .ok AnyRef.new)
    (hc : h.deref c = .ok (Class.new n p)) :
    call_getClass h o = .ok (h.is_a obj.vptr)
    ∧ vt_getClass .String_vtable = AnyRef.getClass
    ∧ call_getClass h s = AnyRef.getClass h s
    ∧ call_getClass h s = .ok h.String_class
    ∧ call_getClass h r = .ok h.AnyRef_class
    ∧ call_getClass h c = .ok h.Class_class := by
  refine ⟨call_getClass_of_deref ho, rfl, ?_, call_getClass_of_deref hs,
    call_getClass_of_deref hr, call_getClass_of_deref hc⟩
  simp [call_getClass, vt_getClass, hs, String.new, Obj.vptr, bind, Except.bind]

/-- Witness for C15: two strings, the bare object and the root descriptor of
the later sample state. -/
theorem C15_getClass_from_vtable_witness :
    call_getClass demoHeap2 4336 = .ok (demoHeap2.is_a (String.new (lit "Hello")).vptr)
    ∧ vt_getClass .String_vtable = AnyRef.getClass
    ∧ call_getClass demoHeap2 4304 = AnyRef.getClass demoHeap2 4304
    ∧ call_getClass demoHeap2 4304 = .ok demoHeap2.String_class
    ∧ call_getClass demoHeap2 4400 = .ok demoHeap2.AnyRef_class
    ∧ call_getClass demoHeap2 4144 = .ok demoHeap2.Class_class :=
  C15_getClass_from_vtable demoHeap2 4336 4304 4400 4144 4112 null _ (lit "Hello") rfl rfl rfl
    rfl

/-- C16: `isInstance` is total: for a Class descriptor `C` and a valid object
`o` the walk returns a boolean, never an error (no null dereference), within
two iterations, the depth of the hierarchy; every descriptor of the runtime
has a parent chain of at most two descriptors that passes the root and ends
at the null value, chain lengths are unique (no cycles), and a walk over any
chain of `m` descriptors returns within `m` iterations. -/
theorem C16_isInstance_total (fuel : Nat) (h : Heap) (hwf : h.WF) (C n p o : Ref) (obj : Obj)
    (hC : h.deref C = .ok (Class.new n p)) (ho : h.deref o = .ok obj) (hf : 2 ≤ fuel) :
    (∃ b, Class.isInstance fuel h C o = .ok b ∧ Class.isInstance 2 h C o = .ok b
        ∧ call_isInstance fuel h C o = .ok b)
    ∧ (∃ k, call_getClass h o = .ok k ∧ h.isDescriptor k)
    ∧ (∀ k, h.isDescriptor k →
        ∃ m, m ≤ 2 ∧ h.ChainLen k m ∧ h.InChain k h.AnyRef_class
          ∧ call_getSuperclass h h.AnyRef_class = .ok null)
    ∧ (∀ k m m', h.ChainLen k m → h.ChainLen k m' → m = m')
    ∧ (∀ k m, h.ChainLen k m → ∀ f, m ≤ f → ∃ b, Class.isInstanceLoop h C f k = .ok b) := by
  refine ⟨?_, ⟨h.is_a obj.vptr, call_getClass_of_deref ho, ?_⟩, ?_,
    fun k m m' hm hm' => ChainLen_unique hm hm', ?_⟩
  · obtain ⟨b, hb, hbi⟩ := isInstance_spec hwf hC ho hf
    obtain ⟨b2, hb2, hbi2⟩ := isInstance_spec hwf hC ho (le_refl 2)
    have hbb : b2 = b := by
      cases b <;> cases b2 <;> simp_all
    refine ⟨b, hb, by rw [hb2, hbb], by rw [call_isInstance_eq hC, hb]⟩
  · cases obj
    · exact Or.inl rfl
    · exact Or.inr (Or.inl rfl)
    · exact Or.inr (Or.inr rfl)
  · have hnull := (describes_calls hwf.root).2
    rintro k (rfl | rfl | rfl)
    · exact ⟨1, by omega, hwf.chain_root, .here _, hnull⟩
    · exact ⟨2, by omega, hwf.chain_string, hwf.inChain_is_a_root .String_vtable, hnull⟩
    · exact ⟨2, by omega, hwf.chain_class, hwf.inChain_is_a_root .Class_vtable, hnull⟩
  · intro k m hm f hmf
    obtain ⟨b, hb, _⟩ := isInstanceLoop_spec h C n p hC k m hm f hmf
    exact ⟨b, hb⟩

/-- Witness for C16: the String descriptor asked about a Class descriptor,
a walk of two iterations that ends at null. -/
theorem C16_isInstance_total_witness :
    ∃ b, Class.isInstance 5 demoHeap 4208 4272 = .ok b
      ∧ Class.isInstance 2 demoHeap 4208 4272 = .ok b
      ∧ call_isInstance 5 demoHeap 4208 4272 = .ok b :=
  (C16_isInstance_total 5 demoHeap demoHeap_WF 4208 4176 4144 4272 _ rfl rfl (by decide)).1

/-- C17: for a Class descriptor `c` constructed with name `n` (of text `nd`)
and parent `p`, `Class.toString(c)`, also when reached through the vtable,
returns a new String with text "class " followed by `nd`, and `getName(c)`
and `getSuperclass(c)` return `n` and `p`; for the String descriptor the text
is "class java.lang.String". -/
theorem C17_class_toString_accessors (h : Heap) (c n p a : Ref) (nd : List CChar)
    (hc : h.deref c = .ok (Class.new n p)) (hn : h.deref n = .ok (String.new nd))
    (ha : h.fresh a) :
    Class.toString h c a = .ok (h.alloc a (String.new (lit "class " ++ nd)), a)
    ∧ call_toString h c a = Class.toString h c a
    ∧ (h.alloc a (String.new (lit "class " ++ nd))).derefString a = .ok (lit "class " ++ nd)
    ∧ Class.getName h c = .ok n ∧ call_getName h c = .ok n
    ∧ Class.getSuperclass h c = .ok p ∧ call_getSuperclass h c = .ok p
    ∧ (nd = lit "java.lang.String" →
        (h.alloc a (String.new (lit "class " ++ nd))).derefString a
          = .ok (lit "class java.lang.String"))
    ∧ (h.WF → ∃ h' r, Class.toString h h.String_class a = .ok (h', r)
        ∧ h'.derefString r = .ok (lit "class java.lang.String")) := by
  refine ⟨?_, ?_, derefString_of_deref (deref_alloc_self h ha.1 _), ?_,
    call_getName_of_deref hc, ?_, call_getSuperclass_of_deref hc, ?_, ?_⟩
  · simp [Class.toString, derefClass_of_deref hc, derefString_of_deref hn, bind, Except.bind,
      pure, Except.pure]
  · simp [call_toString, vt_toString, hc, Class.new, Obj.vptr, bind, Except.bind]
  · simp [Class.getName, derefClass_of_deref hc, bind, Except.bind, pure, Except.pure]
  · simp [Class.getSuperclass, derefClass_of_deref hc, bind, Except.bind, pure, Except.pure]
  · intro hnd
    subst hnd
    exact derefString_of_deref (deref_alloc_self h ha.1 _)
  · intro hwf
    obtain ⟨n2, hk2, hn2⟩ := hwf.string
    refine ⟨h.alloc a (String.new (lit "class " ++ lit "java.lang.String")), a, ?_,
      derefString_of_deref (deref_alloc_self h ha.1 _)⟩
    simp [Class.toString, derefClass_of_deref hk2, derefString_of_deref hn2, bind, Except.bind,
      pure, Except.pure]

/-- Witness for C17: the String descriptor of the sample state. -/
theorem C17_class_toString_accessors_witness :
    (demoHeap.alloc 8192 (String.new (lit "class " ++ lit "java.lang.String"))).derefString 8192
      = .ok (lit "class java.lang.String") :=
  (C17_class_toString_accessors demoHeap 4208 4176 4144 8192 (lit "java.lang.String") rfl rfl
    ⟨by decide, rfl⟩).2.2.2.2.2.2.2.1 rfl

/-- C18: whenever `charAt(s, i)` fails for a 32-bit signed index, the failure
is the out-of-range error, its message is "Index out of bounds for string "
followed by the whole payload of `s`, and the index lies outside the
payload. -/
theorem C18_charAt_error_message (h : Heap) (s : Ref) (data : List CChar)
    (hs : h.deref s = .ok (String.new data)) (i : Int) (hlo : -2147483648 ≤ i)
    (hhi : i < 2147483648) (e : Err) (he : String.charAt h s i = .error e) :
    e = .out_of_range (lit "Index out of bounds for string " ++ data)
    ∧ (i < 0 ∨ (data.length : Int) ≤ i) := by
  by_cases hg : 0 > i ∨ toUnsigned32 i ≥ data.length
  · rw [charAt_fail hs hg] at he
    simp only [Except.error.injEq] at he
    exact ⟨he.symm, (charAt_guard_iff _ i hlo hhi).mp hg⟩
  · have hlt : i.toNat < data.length := by
      have := (charAt_guard_iff data.length i hlo hhi).not.mp hg
      omega
    rw [charAt_ok hs hg (List.getElem?_eq_getElem hlt)] at he
    simp at he

/-- Witness for C18: index 5 of the string "Hello". -/
theorem C18_charAt_error_message_witness :
    Err.out_of_range (lit "Index out of bounds for string Hello")
      = .out_of_range (lit "Index out of bounds for string " ++ lit "Hello")
    ∧ ((5 : Int) < 0 ∨ (((lit "Hello").length : Nat) : Int) ≤ 5) :=
  C18_charAt_error_message demoHeap 4304 (lit "Hello") rfl 5 (by decide) (by decide)
    (.out_of_range (lit "Index out of bounds for string Hello")) rfl

/-- C19: `String.hashCode` is compatible with concatenation: for strings with
payloads `a`, `b` and `a ++ b` the hash of the concatenation is
`hashCode(a) * 31^length(b) + hashCode(b)` in wrapping 32-bit arithmetic, and
for a string with payload `a` followed by one character `c` it is
`31*hashCode(a) + c`. -/
theorem C19_hashCode_concat (sc : Bool) (h : Heap) (sa sb sab : Ref) (a b : List CChar)
    (ha : h.deref sa = .ok (String.new a)) (hb : h.deref sb = .ok (String.new b))
    (hab : h.deref sab = .ok (String.new (a ++ b))) :
    ∃ va vb, String.hashCode sc h sa = .ok va ∧ String.hashCode sc h sb = .ok vb
      ∧ String.hashCode sc h sab = .ok (wrap32 (va * 31 ^ b.length + vb))
      ∧ ∀ s1 c, h.deref s1 = .ok (String.new (a ++ [c])) →
          String.hashCode sc h s1 = .ok (wrap32 (31 * va + charVal sc c)) := by
  refine ⟨_, _, hashCode_of_deref sc ha, hashCode_of_deref sc hb, ?_, ?_⟩
  · rw [hashCode_of_deref sc hab, specRollingHash_append]
  · intro s1 c h1
    rw [hashCode_of_deref sc h1, specRollingHash_snoc]

/-- Witness for C19: "Hello", "World" and "HelloWorld". -/
theorem C19_hashCode_concat_witness :
    ∃ va vb, String.hashCode true demoHeap3 4304 = .ok va
      ∧ String.hashCode true demoHeap3 4368 = .ok vb
      ∧ String.hashCode true demoHeap3 4432 = .ok (wrap32 (va * 31 ^ (lit "World").length + vb))
      ∧ ∀ s1 c, demoHeap3.deref s1 = .ok (String.new (lit "Hello" ++ [c])) →
          String.hashCode true demoHeap3 s1 = .ok (wrap32 (31 * va + charVal true c)) :=
  C19_hashCode_concat true demoHeap3 4304 4368 4432 (lit "Hello") (lit "World") rfl rfl rfl

/-- C20: on String objects `String.equals` is an equivalence relation:
`s.equals(s)` is true, `s1.equals(s2)` implies `s2.equals(s1)`, and
`s1.equals(s2)` with `s2.equals(s3)` implies `s1.equals(s3)`. -/
theorem C20_equals_equivalence (fuel : Nat) (h : Heap) (hwf : h.WF) (s1 s2 s3 : Ref)
    (d1 d2 d3 : List CChar) (h1 : h.deref s1 = .ok (String.new d1))
    (h2 : h.deref s2 = .ok (String.new d2)) (h3 : h.deref s3 = .ok (String.new d3))
    (hf : 1 ≤ fuel) :
    String.equals fuel h s1 s1 = .ok true
    ∧ (String.equals fuel h s1 s2 = .ok true → String.equals fuel h s2 s1 = .ok true)
    ∧ (String.equals fuel h s1 s2 = .ok true → String.equals fuel h s2 s3 = .ok true →
        String.equals fuel h s1 s3 = .ok true) := by
  rw [equals_of_strings hwf h1 h1 hf, equals_of_strings hwf h1 h2 hf,
    equals_of_strings hwf h2 h1 hf, equals_of_strings hwf h2 h3 hf,
    equals_of_strings hwf h1 h3 hf]
  simp only [Except.ok.injEq, decide_eq_true_eq, decide_True, true_and]
  exact ⟨fun e => e.symm, fun e12 e23 => e12.trans e23⟩

/-- Witness for C20: the two "Hello" strings and "World". -/
theorem C20_equals_equivalence_witness :
    String.equals 2 demoHeap2 4304 4304 = .ok true
    ∧ (String.equals 2 demoHeap2 4304 4336 = .ok true →
        String.equals 2 demoHeap2 4336 4304 = .ok true)
    ∧ (String.equals 2 demoHeap2 4304 4336 = .ok true →
        String.equals 2 demoHeap2 4336 4368 = .ok true →
        String.equals 2 demoHeap2 4304 4368 = .ok true) :=
  C20_equals_equivalence 2 demoHeap2 demoHeap2_WF 4304 4336 4368 (lit "Hello") (lit "Hello")
    (lit "World") rfl rfl rfl (by decide)

end Runtime
